import Mathlib

/-!
Verification of the splitdial split-tunnel proxy core.

Go strings are modelled as `List Char` (the sources only ever process ASCII
hosts, patterns and addresses; `Char` stands for a byte/rune).  Go slices of
bytes are `List Nat`.  Fallible Go functions returning `(T, error)` are
modelled as `Option`/`Except`.  Loops are translated to structural recursion;
where a Go loop is not structurally decreasing, an explicit fuel parameter
bounds it and callers pass a bound that the loop can never exhaust (each
iteration consumes at least one character).
-/

deriving instance DecidableEq for Except

namespace SplitDial

abbrev Str := List Char

/-- Bytes of a Lean string literal, for modelling Go `[]byte(...)` writes. -/
def bytesOf (s : String) : List Nat := s.toList.map Char.toNat

/-- Character list of a Lean string literal. -/
def strL (s : String) : Str := s.toList

/-- ASCII lowering of one character, as Go `strings.ToLower` acts on the
ASCII inputs the router sees (Go's function is Unicode-general). -/
def toLowerChar (c : Char) : Char :=
  if 'A' ≤ c ∧ c ≤ 'Z' then Char.ofNat (c.toNat + 32) else c

/-- Go `strings.ToLower`, restricted to the ASCII alphabet. -/
def toLower (s : Str) : Str := s.map toLowerChar

/-! ### Go `path/filepath.Match` (shell glob matching)

Faithful translation of the Go standard library matcher that
`router.matchDomain` calls.  `none` stands for Go's `ErrBadPattern`
(the caller discards the error, treating it as a non-match). -/

/-- Leading-star consumption of Go `scanChunk`. -/
def scanChunkStars : Str → Bool → Bool × Str
  | [], star => (star, [])
  | c :: rest, star =>
    if c = '*' then scanChunkStars rest true else (star, c :: rest)

/-- Scanning loop of Go `scanChunk`: split the pattern into the next chunk
(up to an unbracketed `*`) and the remainder. -/
def scanChunkScan : Str → Bool → Str × Str
  | [], _ => ([], [])
  | c :: rest, inrange =>
    if c = '*' ∧ ¬ inrange then ([], c :: rest)
    else if c = '\\' then
      match rest with
      | [] => ([c], [])
      | c2 :: rest2 =>
        let (ch, r) := scanChunkScan rest2 inrange
        (c :: c2 :: ch, r)
    else
      let inrange := if c = '[' then true else if c = ']' then false else inrange
      let (ch, r) := scanChunkScan rest inrange
      (c :: ch, r)

/-- Go `scanChunk`: gets the next segment of pattern, which is a possibly-star
prefix followed by a chunk of non-star characters. -/
def scanChunk (pattern : Str) : Bool × Str × Str :=
  let (star, p) := scanChunkStars pattern false
  let (chunk, rest) := scanChunkScan p false
  (star, chunk, rest)

/-- Go `getEsc`: one possibly-escaped character out of a `[...]` class.
`none` is `ErrBadPattern`. -/
def getEsc : Str → Option (Char × Str)
  | [] => none
  | c :: rest =>
    if c = '-' ∨ c = ']' then none
    else if c = '\\' then
      match rest with
      | [] => none
      | c2 :: rest2 => if rest2 = [] then none else some (c2, rest2)
    else if rest = [] then none else some (c, rest)

/-- Range-parsing loop of the `[` case of Go `matchChunk`: parse the class
ranges against rune `r`, returning (match, rest-of-chunk).  The fuel bounds
the loop; `getEsc` consumes at least one character per range, so callers pass
`chunk.length + 1` which cannot be exhausted. -/
def rangeLoop : Nat → Str → Char → Bool → Nat → Option (Bool × Str)
  | 0, _, _, _, _ => none
  | fuel + 1, chunk, r, m, nrange =>
    if chunk.head? = some ']' ∧ nrange > 0 then some (m, chunk.tail)
    else
      match getEsc chunk with
      | none => none
      | some (lo, chunk1) =>
        match (if chunk1.head? = some '-' then getEsc chunk1.tail
               else some (lo, chunk1)) with
        | none => none
        | some (hi, chunk2) =>
          rangeLoop fuel chunk2 r (m || (lo ≤ r ∧ r ≤ hi)) (nrange + 1)

/-- Go `matchChunk`: match the chunk against the beginning of `s`, carrying
the `failed` flag (after a failure Go keeps scanning the chunk to check
well-formedness).  Fuel bounds the loop: each iteration consumes at least one
chunk character, so `chunk.length + 1` is never exhausted.  Returns
`some (some t)` for ok with rest `t`, `some none` for a clean non-match,
`none` for `ErrBadPattern`. -/
def matchChunk : Nat → Str → Str → Bool → Option (Option Str)
  | 0, _, _, _ => none
  | fuel + 1, chunk, s, failed =>
    match chunk with
    | [] => some (if failed then none else some s)
    | c :: chunkRest =>
      let failed := failed || s.isEmpty
      if c = '[' then
        let (r, s1) :=
          match s, failed with
          | a :: srest, false => (a, srest)
          | _, _ => (Char.ofNat 0, s)
        let (negated, chunk1) :=
          match chunkRest with
          | c2 :: crest => if c2 = '^' then (true, crest) else (false, chunkRest)
          | [] => (false, chunkRest)
        match rangeLoop (chunk1.length + 1) chunk1 r false 0 with
        | none => none
        | some (m, chunk2) => matchChunk fuel chunk2 s1 (failed || (m == negated))
      else if c = '?' then
        match s, failed with
        | a :: srest, false => matchChunk fuel chunkRest srest (a == '/')
        | _, _ => matchChunk fuel chunkRest s failed
      else if c = '\\' then
        match chunkRest with
        | [] => none
        | c2 :: rest2 =>
          match s, failed with
          | a :: srest, false => matchChunk fuel rest2 srest (a != c2)
          | _, _ => matchChunk fuel rest2 s failed
      else
        match s, failed with
        | a :: srest, false => matchChunk fuel chunkRest srest (a != c)
        | _, _ => matchChunk fuel chunkRest s failed

/-- Result of the star-backtracking inner loop of Go `Match`. -/
inductive StarRes where
  | fail
  | err
  | cont (t : Str)

/-- Star-backtracking loop of Go `Match`: try matching the chunk at every
position of `name` (stopping at a path separator). -/
def starScan (chunk : Str) (restEmpty : Bool) : Str → StarRes
  | [] => .fail
  | c :: nrest =>
    if c = '/' then .fail
    else
      match matchChunk (chunk.length + 1) chunk nrest false with
      | none => .err
      | some (some t) =>
        if restEmpty ∧ t ≠ [] then starScan chunk restEmpty nrest
        else .cont t
      | some none => starScan chunk restEmpty nrest

/-- Main loop of Go `filepath.Match`.  Fuel bounds the loop; each iteration
consumes at least one pattern character, so `pattern.length + 1` is never
exhausted.  `none` is `ErrBadPattern` (Go returns `(false, err)`). -/
def goMatch : Nat → Str → Str → Option Bool
  | 0, _, _ => none
  | fuel + 1, pattern, name =>
    match pattern with
    | [] => some (decide (name = []))
    | _ :: _ =>
      let (star, chunk, rest) := scanChunk pattern
      if star ∧ chunk = [] then
        -- trailing `*` matches the rest of name unless it has a separator
        some (!name.contains '/')
      else
        match matchChunk (chunk.length + 1) chunk name false with
        | none => none
        | some (some t) =>
          if t = [] ∨ rest ≠ [] then goMatch fuel rest t
          else if star then
            match starScan chunk (rest = []) name with
            | .fail => some false
            | .err => none
            | .cont t2 => goMatch fuel rest t2
          else some false
        | some none =>
          if star then
            match starScan chunk (rest = []) name with
            | .fail => some false
            | .err => none
            | .cont t2 => goMatch fuel rest t2
          else some false

/-- Go `filepath.Match(pattern, name)` as called by `matchDomain`: the error
is discarded (`matched, _ := filepath.Match(...)`), so a bad pattern counts
as a non-match. -/
def filepathMatch (pattern name : Str) : Bool :=
  (goMatch (pattern.length + 1) pattern name).getD false

/-! ### Go IP addresses (`net.ParseIP`, `net.ParseCIDR`, `net.IPNet.Contains`)

An IP is its byte representation: a `List Nat` of length 4 or 16.
`net.ParseIP` delegates to `netip.ParseAddr` and always yields the 16-byte
form (IPv4 addresses come back IPv4-in-IPv6 mapped); zoned addresses are
rejected. -/

/-- Digit value of an ASCII decimal digit. -/
def decVal (c : Char) : Option Nat :=
  if '0' ≤ c ∧ c ≤ '9' then some (c.toNat - '0'.toNat) else none

/-- Go `netip.parseIPv4Fields`: the state machine over a dotted-quad string.
State: accumulated field value, digits in the current field, completed
fields. -/
def parseIPv4Fields : Str → Nat → Nat → List Nat → Option (List Nat)
  | [], val, _, fields =>
    -- end of string: need exactly three completed fields before the last
    if fields.length < 3 then none else some (fields ++ [val])
  | c :: rest, val, digLen, fields =>
    match decVal c with
    | some d =>
      if digLen = 1 ∧ val = 0 then none       -- octet with leading zero
      else
        let val := val * 10 + d
        if val > 255 then none                -- field has value > 255
        else parseIPv4Fields rest val (digLen + 1) fields
    | none =>
      if c = '.' then
        if digLen = 0 then none               -- field with no digit
        else if rest = [] then none           -- trailing dot
        else if fields.length = 3 then none   -- address too long
        else parseIPv4Fields rest 0 0 (fields ++ [val])
      else none                               -- unexpected character

/-- Prefix of an IPv4-in-IPv6 mapped address. -/
def v4InV6Prefix : List Nat := [0, 0, 0, 0, 0, 0, 0, 0, 0, 0, 0xff, 0xff]

/-- Go `netip.parseIPv4` followed by `As16`: the 16-byte v4-mapped form. -/
def parseIPv4 (s : Str) : Option (List Nat) :=
  (parseIPv4Fields s 0 0 []).map (fun f4 => v4InV6Prefix ++ f4)

/-- Hex value of an ASCII hex digit. -/
def hexVal (c : Char) : Option Nat :=
  if '0' ≤ c ∧ c ≤ '9' then some (c.toNat - '0'.toNat)
  else if 'a' ≤ c ∧ c ≤ 'f' then some (c.toNat - 'a'.toNat + 10)
  else if 'A' ≤ c ∧ c ≤ 'F' then some (c.toNat - 'A'.toNat + 10)
  else none

/-- Hex-group scanning loop of Go `netip.parseIPv6`: accumulate up to four
hex digits; returns (value, digits-consumed, rest). -/
def scanHexGroup : Str → Nat → Nat → Option (Nat × Nat × Str)
  | [], acc, off => some (acc, off, [])
  | c :: rest, acc, off =>
    match hexVal c with
    | none => some (acc, off, c :: rest)
    | some d =>
      if off > 3 then none                    -- more than 4 digits in group
      else
        let acc := acc * 16 + d
        if acc > 0xFFFF then none
        else scanHexGroup rest acc (off + 1)

/-- Main loop of Go `netip.parseIPv6`.  `ip` is the bytes emitted so far (Go
index `i` is `ip.length`), `ellipsis` the position of `::` if seen.  The
fuel bounds the loop: each iteration emits two bytes and the loop stops at
16, so 9 units suffice; callers pass 16.  Returns the unconsumed input, the
emitted bytes and the ellipsis position. -/
def parseIPv6Loop : Nat → Str → List Nat → Option Nat →
    Option (Str × List Nat × Option Nat)
  | 0, _, _, _ => none
  | fuel + 1, s, ip, ellipsis =>
    if ip.length < 16 then
      match scanHexGroup s 0 0 with
      | none => none
      | some (acc, off, rest) =>
        if off = 0 then none                  -- field with no digit
        else if rest.head? = some '.' then
          -- trailing embedded IPv4: it parses the whole remaining field
          if ellipsis.isNone ∧ ip.length ≠ 12 then none
          else if ip.length + 4 > 16 then none
          else
            match parseIPv4Fields s 0 0 [] with
            | none => none
            | some f4 => some ([], ip ++ f4, ellipsis)
        else
          let ip := ip ++ [acc / 256, acc % 256]
          if rest = [] then some ([], ip, ellipsis)
          else
            match rest with
            | ':' :: s1 =>
              if s1 = [] then none            -- colon must be followed by more
              else
                match s1 with
                | ':' :: s2 =>
                  if ellipsis.isSome then none  -- multiple ::
                  else if s2 = [] then some ([], ip, some ip.length)
                  else parseIPv6Loop fuel s2 ip (some ip.length)
                | _ => parseIPv6Loop fuel s1 ip ellipsis
            | _ => none                       -- unexpected character, want colon
    else some (s, ip, ellipsis)

/-- Completion of Go `netip.parseIPv6`: check for trailing garbage and
expand the ellipsis. -/
def finishIPv6 : Option (Str × List Nat × Option Nat) → Option (List Nat)
  | none => none
  | some (s, ip, ellipsis) =>
    if s ≠ [] then none                       -- trailing garbage
    else if ip.length < 16 then
      match ellipsis with
      | none => none                          -- address string too short
      | some e => some (ip.take e ++ List.replicate (16 - ip.length) 0 ++ ip.drop e)
    else if ellipsis.isSome then none         -- :: must expand to ≥ 1 field
    else some ip

/-- Go `netip.parseIPv6`.  `net.ParseIP` rejects every zoned address (a
non-empty zone is refused by `parseIP`, an empty one by `parseIPv6`), so any
`%` yields `none` here. -/
def parseIPv6 (inp : Str) : Option (List Nat) :=
  if inp.contains '%' then none
  else
    match inp with
    | ':' :: ':' :: s =>
      if s = [] then some (List.replicate 16 0)   -- "::" is the unspecified address
      else finishIPv6 (parseIPv6Loop 16 s [] (some 0))
    | _ => finishIPv6 (parseIPv6Loop 16 inp [] none)

/-- Dispatch loop of Go `netip.ParseAddr`: the first of `.`, `:`, `%`
decides the format.  Returns the 16-byte form and whether the address was a
plain IPv4 (`Is4`, which determines `BitLen` for CIDR parsing). -/
def parseAddrGo (full : Str) : Str → Option (List Nat × Bool)
  | [] => none
  | c :: rest =>
    if c = '.' then (parseIPv4 full).map (fun b => (b, true))
    else if c = ':' then (parseIPv6 full).map (fun b => (b, false))
    else if c = '%' then none
    else parseAddrGo full rest

/-- Go `netip.ParseAddr` (with `net.ParseIP`'s zone rejection). -/
def parseAddrB (s : Str) : Option (List Nat × Bool) := parseAddrGo s s

/-- Go `net.ParseIP`: the 16-byte form, or `none` for an invalid literal. -/
def parseIP (s : Str) : Option (List Nat) := (parseAddrB s).map Prod.fst

/-- Go `IP.To4`: the 4-byte form of an IPv4 or v4-mapped address. -/
def ipTo4 (ip : List Nat) : Option (List Nat) :=
  if ip.length = 4 then some ip
  else if ip.length = 16 ∧ ip.take 12 = v4InV6Prefix then some (ip.drop 12)
  else none

/-- Go `IP.To16`: the 16-byte form of a 4- or 16-byte address. -/
def ipTo16 (ip : List Nat) : Option (List Nat) :=
  if ip.length = 4 then some (v4InV6Prefix ++ ip)
  else if ip.length = 16 then some ip
  else none

/-- Go `IP.IsLinkLocalUnicast`: 169.254.0.0/16 for IPv4, fe80::/10 for
IPv6. -/
def isLinkLocalUnicast (ip : List Nat) : Bool :=
  match ipTo4 ip with
  | some (a :: b :: _) => a == 169 && b == 254
  | some _ => false
  | none =>
    match ip with
    | a :: b :: _ => ip.length == 16 && a == 0xfe && (b &&& 0xc0) == 0x80
    | _ => false

/-- Go `IP.Equal`: byte equality up to v4/v4-mapped identification.  A `nil`
Go IP is the empty list. -/
def ipEqual (ip x : List Nat) : Bool :=
  if ip.length = x.length then ip == x
  else if ip.length = 4 ∧ x.length = 16 then
    x.take 12 == v4InV6Prefix && ip == x.drop 12
  else if ip.length = 16 ∧ x.length = 4 then
    ip.take 12 == v4InV6Prefix && x == ip.drop 12
  else false

/-- Go `net.IPNet`: a masked network number plus its mask. -/
structure IPNetM where
  IP : List Nat
  Mask : List Nat
  deriving DecidableEq

/-- Digit-consuming loop of Go `dtoi`. -/
def dtoiLoop : Str → Nat → Nat → Option (Nat × Nat)
  | [], n, i => if i = 0 then none else some (n, i)
  | c :: rest, n, i =>
    match decVal c with
    | some d =>
      let n := n * 10 + d
      if n ≥ 0xFFFFFF then none               -- the `big` cutoff
      else dtoiLoop rest n (i + 1)
    | none => if i = 0 then none else some (n, i)

/-- Go `dtoi`: leading decimal integer and its length in digits; `none` when
there is no digit or the value reaches the `big` cutoff. -/
def dtoi (s : Str) : Option (Nat × Nat) := dtoiLoop s 0 0

/-- Go `net.CIDRMask(n, bits)` for the in-range arguments `ParseCIDR`
passes. -/
def cidrMask (n bits : Nat) : List Nat :=
  (List.range (bits / 8)).map (fun i =>
    let rem := n - i * 8
    if rem ≥ 8 then 255 else 255 - (255 >>> rem))

/-- Go `IP.Mask`: apply a mask, normalising a v4-mapped address against a
4-byte mask (and a 16-byte all-ones-prefixed mask against a 4-byte IP). -/
def ipMask (ip mask : List Nat) : Option (List Nat) :=
  let mask :=
    if mask.length = 16 ∧ ip.length = 4 ∧ mask.take 12 = List.replicate 12 255
    then mask.drop 12 else mask
  let ip :=
    if mask.length = 4 ∧ ip.length = 16 ∧ ip.take 12 = v4InV6Prefix
    then ip.drop 12 else ip
  if ip.length = mask.length then some (List.zipWith (fun a b => a &&& b) ip mask)
  else none

/-- Index of the first occurrence of a character (Go `byteIndex`). -/
def indexOfChar (s : Str) (c : Char) : Option Nat := s.indexOf? c

/-- Go `net.ParseCIDR`: split at the first `/`, parse the address part, the
decimal prefix length, and build the masked network. -/
def parseCIDR (s : Str) : Option IPNetM :=
  match indexOfChar s '/' with
  | none => none
  | some i =>
    let addr := s.take i
    let mask := s.drop (i + 1)
    match parseAddrB addr with
    | none => none
    | some (addr16, is4) =>
      let bitLen := if is4 then 32 else 128
      match dtoi mask with
      | none => none
      | some (n, consumed) =>
        if consumed ≠ mask.length ∨ n > bitLen then none
        else
          let m := cidrMask n bitLen
          match ipMask addr16 m with
          | none => none
          | some masked => some ⟨masked, m⟩

/-- Go `networkNumberAndMask`: normalise an `IPNet` before containment
checks; `none` is Go's `nil, nil`. -/
def networkNumberAndMask (n : IPNetM) : Option (List Nat × List Nat) :=
  let ipo :=
    match ipTo4 n.IP with
    | some ip4 => some ip4
    | none => if n.IP.length = 16 then some n.IP else none
  match ipo with
  | none => none
  | some ip =>
    if n.Mask.length = 4 then
      if ip.length ≠ 4 then none else some (ip, n.Mask)
    else if n.Mask.length = 16 then
      if ip.length = 4 then some (ip, n.Mask.drop 12) else some (ip, n.Mask)
    else none

/-- Go `IPNet.Contains`. -/
def ipNetContains (n : IPNetM) (ip : List Nat) : Bool :=
  match networkNumberAndMask n with
  | none => false                             -- nil network: length test fails
  | some (nn, m) =>
    let ip := match ipTo4 ip with
      | some x => x
      | none => ip
    if ip.length ≠ nn.length then false
    else
      List.zip (List.zip nn m) ip |>.all (fun p =>
        (p.1.1 &&& p.1.2) == (p.2 &&& p.1.2))

/-! ### The routing engine (`internal/router`) -/

/-- Go `config.Match`: the match predicate of a rule.  `Protocol` is carried
but ignored by the router. -/
structure MatchCond where
  Domains : List Str
  IPs : List Str
  Ports : List Int
  Protocol : Str
  deriving DecidableEq

/-- Go `config.RouteRule`. -/
structure RouteRule where
  ID : Str
  Name : Str
  RMatch : MatchCond
  Interface : Str
  Enabled : Bool
  deriving DecidableEq

/-- Go `router.RouteResult`. -/
structure RouteResult where
  Interface : Str
  RuleID : Str
  RuleName : Str
  deriving DecidableEq

/-- Go `matchDomain`: exact match, `*.suffix` wildcard (also accepting the
bare suffix), then shell-glob fallback — note the wildcard branch falls
through to the glob when its own checks fail. -/
def matchDomain (pattern domain : Str) : Bool :=
  let pattern := toLower pattern
  let domain := toLower domain
  if pattern == domain then true
  else if (strL "*.").isPrefixOf pattern then
    -- suffix := pattern[1:] ("." + rest); also match the bare root domain
    if (pattern.drop 1).isSuffixOf domain then true
    else if domain == pattern.drop 2 then true
    else filepathMatch pattern domain
  else filepathMatch pattern domain

/-- One entry of the IP clause of Go `Router.matchRule`: a CIDR by
containment, otherwise a bare IP by equality (a `nil` `net.ParseIP` result
is the empty list, which `ipEqual` rejects). -/
def ipEntryMatches (cidr : Str) (ip : List Nat) : Bool :=
  match parseCIDR cidr with
  | none => ipEqual ((parseIP cidr).getD []) ip
  | some ipNet => ipNetContains ipNet ip

/-- Go `Router.matchRule`.  Each early `return false` of the source is one
conjunct here. -/
def matchRule (rule : RouteRule) (host : Str) (port : Int) : Bool :=
  let m := rule.RMatch
  -- no match conditions: catch-all
  if m.Domains.isEmpty && m.IPs.isEmpty && m.Ports.isEmpty then true
  else
    let domainsOK :=
      if m.Domains.isEmpty then true
      else m.Domains.any (fun pattern => matchDomain pattern host)
    let ipsOK :=
      if m.IPs.isEmpty then true
      else
        match parseIP host with
        | none =>
          -- host is a domain name: a rule with only IP conditions cannot
          -- match it; otherwise the IP clause is skipped
          !m.Domains.isEmpty
        | some ip => m.IPs.any (fun cidr => ipEntryMatches cidr ip)
    let portsOK :=
      if m.Ports.isEmpty then true
      else m.Ports.any (fun p => p == port)
    domainsOK && ipsOK && portsOK

/-- The synthetic default decision of Go `Router.Route`. -/
def defaultRouteResult : RouteResult :=
  ⟨strL "cable", strL "default", strL "Default"⟩

/-- Go `Router.Route`: first enabled matching rule, else the default. -/
def route (rules : List RouteRule) (host : Str) (port : Int) : RouteResult :=
  match rules with
  | [] => defaultRouteResult
  | rule :: rest =>
    if rule.Enabled && matchRule rule host port then
      ⟨rule.Interface, rule.ID, rule.Name⟩
    else route rest host port

/-! ### The interface registry (`internal/network/interfaces.go`) -/

/-- Go `network.Interface` (the fields the dialer reads). -/
structure Interface where
  Name : Str
  IPv4Addrs : List Str
  IPv6Addrs : List Str
  deriving DecidableEq

/-- Go `net.TCPAddr` (IP bytes and port). -/
structure TCPAddr where
  IP : List Nat
  Port : Int
  deriving DecidableEq

/-- Index of the last occurrence of a character (Go `byteLastIndex`). -/
def lastIndexOfChar (s : Str) (c : Char) : Option Nat :=
  match s.reverse.indexOf? c with
  | none => none
  | some i => some (s.length - 1 - i)

/-- Go `net.SplitHostPort`.  The callers only test `err != nil`, so the
distinct error kinds collapse to `none`. -/
def splitHostPort (hostport : Str) : Option (Str × Str) :=
  match lastIndexOfChar hostport ':' with
  | none => none                              -- missing port
  | some i =>
    if hostport.head? = some '[' then
      match indexOfChar hostport ']' with
      | none => none                          -- missing ']'
      | some endi =>
        if endi + 1 = hostport.length then none       -- missing port
        else if endi + 1 ≠ i then none                -- ']' not just before the last ':'
        else
          let host := (hostport.drop 1).take (endi - 1)
          if (hostport.drop 1).contains '[' then none -- unexpected '['
          else if (hostport.drop (endi + 1)).contains ']' then none
          else some (host, hostport.drop (i + 1))
    else
      let host := hostport.take i
      if host.contains ':' then none          -- too many colons
      else if hostport.contains '[' then none
      else if hostport.contains ']' then none
      else some (host, hostport.drop (i + 1))

/-- Host part of `GetLocalAddrForTarget`'s target: strip the port when one
is present. -/
def hostOfTarget (targetAddr : Str) : Str :=
  match splitHostPort targetAddr with
  | some (h, _) => h
  | none => targetAddr

/-- The `isIPv6Target` test of `GetLocalAddrForTarget`: the host parses and
is not a 4-byte-representable address. -/
def isIPv6TargetB (targetAddr : Str) : Bool :=
  match parseIP (hostOfTarget targetAddr) with
  | some ip => (ipTo4 ip).isNone && (ipTo16 ip).isSome
  | none => false

/-- Error kinds of the registry lookups (the source returns `fmt.Errorf`
values; constructors are named after the messages). -/
inductive IfaceErr where
  | noIPv6          -- "no IPv6 address found for interface ..."
  | onlyLinkLocal   -- "interface ... only has link-local IPv6 address ..."
  | noUsableIPv6    -- "no usable IPv6 address found for interface ..."
  | noIPv4          -- "no IPv4 address found for interface ..."
  | parseFailed     -- "failed to parse IP address: ..."
  deriving DecidableEq

/-- Selection loop of `GetLocalAddrForTarget`: first parseable
non-link-local IPv6 address, tracking whether a link-local one was seen
before it. -/
def selectGlobalV6 : List Str → Bool → Option Str × Bool
  | [], hasLL => (none, hasLL)
  | addr :: rest, hasLL =>
    match parseIP addr with
    | none => selectGlobalV6 rest hasLL
    | some ip =>
      if isLinkLocalUnicast ip then selectGlobalV6 rest true
      else (some addr, hasLL)

/-- Go `InterfaceManager.GetLocalAddrForTarget`, taking the interface record
that `GetInterfaceByType` returns (the OS enumeration behind that lookup is
outside the model). -/
def getLocalAddrForTarget (iface : Interface) (targetAddr : Str) :
    Except IfaceErr TCPAddr :=
  if isIPv6TargetB targetAddr then
    if iface.IPv6Addrs.isEmpty then .error .noIPv6
    else
      match selectGlobalV6 iface.IPv6Addrs false with
      | (none, true) => .error .onlyLinkLocal
      | (none, false) => .error .noUsableIPv6
      | (some selected, _) =>
        match parseIP selected with
        | none => .error .parseFailed
        | some ip => .ok ⟨ip, 0⟩
  else
    match iface.IPv4Addrs with
    | [] => .error .noIPv4
    | a :: _ =>
      match parseIP a with
      | none => .error .parseFailed
      | some ip => .ok ⟨ip, 0⟩

/-! ### The interface-bound dialer (`InterfaceDialer.DialContext`) -/

/-- An upstream connection as the front-ends see it: its OS-assigned local
address (for the SOCKS5 success reply). -/
structure Conn where
  localIPStr : Str
  localPort : Int
  deriving DecidableEq

/-- Error kind of `DialContext` (the wrapped "failed to dial ... via ..."). -/
inductive DialErr where
  | failedToDial
  deriving DecidableEq

/-- Log events `DialContext` emits. -/
inductive DLog where
  | warnFallback    -- "Interface unavailable, falling back to default route"
  | debugDialing    -- "Dialing connection"
  deriving DecidableEq

/-- Go `InterfaceDialer.DialContext`: the OS-level TCP connect is the oracle
`dialOS`, called with the chosen local bind address (`none` is Go's `nil`
`LocalAddr`, the system default route). -/
def dialContext (iface : Interface) (address : Str)
    (dialOS : Option TCPAddr → Except Unit Conn) :
    Except DialErr Conn × List DLog :=
  let (localAddr, warns) :=
    match getLocalAddrForTarget iface address with
    | .error _ => (none, [DLog.warnFallback]) -- fallback: nil localAddr
    | .ok la => (some la, [])
  let logs := warns ++ [DLog.debugDialing]
  match dialOS localAddr with
  | .error _ => (.error .failedToDial, logs)
  | .ok conn => (.ok conn, logs)

/-! ### The protocol front-ends (`internal/proxy`)

Each connection handler is modelled as the sequence of externally visible
events it performs on its sockets, with the upstream dial as an oracle. -/

/-- Events a connection handler performs, in order. -/
inductive Ev where
  | write (bs : List Nat)   -- bytes written to the client socket
  | clearDeadline           -- SetDeadline(time.Time{})
  | relay                   -- enter the bidirectional relay
  | closeRemote             -- deferred remote.Close()
  | closeClient             -- deferred conn.Close()
  deriving DecidableEq

/-- Go `strconv.Itoa` for the port values the front-ends format. -/
def itoa (n : Int) : Str :=
  if n < 0 then '-' :: Nat.toDigits 10 (-n).toNat
  else Nat.toDigits 10 n.toNat

/-- Digit loop of Go `strconv.Atoi`: all characters must be digits (the
ports seen here are far below the int64 cutoff, so overflow is omitted). -/
def atoiDigits : Str → Nat → Option Nat
  | [], acc => some acc
  | c :: rest, acc =>
    match decVal c with
    | some d => atoiDigits rest (acc * 10 + d)
    | none => none

/-- Go `strconv.Atoi` as the front-ends use it (`port, _ := strconv.Atoi`):
the error case yields 0. -/
def atoi (s : Str) : Int :=
  let signed : Option Int :=
    match s with
    | [] => none
    | '+' :: rest => (atoiDigits rest 0).map (fun n => (n : Int))
    | '-' :: rest => (atoiDigits rest 0).map (fun n => -(n : Int))
    | _ => (atoiDigits s 0).map (fun n => (n : Int))
  signed.getD 0

/-- Go `net.JoinHostPort`. -/
def joinHostPort (host port : Str) : Str :=
  if host.contains ':' then '[' :: (host ++ (']' :: ':' :: port))
  else host ++ (':' :: port)

/-- Big-endian 16-bit encoding of Go `binary.BigEndian.PutUint16` applied to
`uint16(port)` (two's-complement wrap of the int). -/
def putUint16BE (port : Int) : List Nat :=
  let v := (port.emod 65536).toNat
  [v / 256, v % 256]

/-- Go `SOCKS5Server.sendReply`: the reply bytes for a reply code, bind
address string and port. -/
def sendReplyBytes (rep : Nat) (addr : Str) (port : Int) : List Nat :=
  let ipBytes := (parseIP addr).getD []       -- nil IP is the empty slice
  let (addrType, addrBytes) :=
    match ipTo4 ipBytes with
    | some ip4 => (1, ip4)
    | none =>
      match ipTo16 ipBytes with
      | some ip6 => (4, ip6)
      | none => (1, [0, 0, 0, 0])
  [5, rep, 0, addrType] ++ addrBytes ++ putUint16BE port

/-- Tail of Go `SOCKS5Server.handleConnection` after a successful SOCKS5
request: clear the deadline, route, dial; reply 0x04 with 0.0.0.0:0 on dial
failure, else the success reply with the connection's local address, then
relay.  The deferred closes end the event list. -/
def socks5HandleTail (rules : List RouteRule) (targetAddr : Str) (port : Int)
    (dial : Str → Str → Except Unit Conn) : List Ev :=
  Ev.clearDeadline ::
    (let result := route rules targetAddr port
     let target := joinHostPort targetAddr (itoa port)
     match dial target result.Interface with
     | .error _ => [Ev.write (sendReplyBytes 4 (strL "0.0.0.0") 0), Ev.closeClient]
     | .ok conn =>
       [Ev.write (sendReplyBytes 0 conn.localIPStr conn.localPort),
        Ev.relay, Ev.closeRemote, Ev.closeClient])

/-- Go `http.StatusText` for the codes these handlers write. -/
def statusText (code : Nat) : Str :=
  if code = 200 then strL "OK"
  else if code = 502 then strL "Bad Gateway"
  else []

/-- The status line `responseWriter.WriteHeader` prints:
`HTTP/1.1 %d %s\r\n\r\n`. -/
def writeHeaderBytes (code : Nat) : List Nat :=
  bytesOf "HTTP/1.1 " ++ (Nat.toDigits 10 code).map Char.toNat ++
    [32] ++ (statusText code).map Char.toNat ++ [13, 10, 13, 10]

/-- Go `http.Error` through the proxy's minimal `responseWriter`: the header
mutations hit a fresh discarded map, `WriteHeader` prints the status line
and `fmt.Fprintln` appends the message and a newline. -/
def httpErrorEvents (msg : Str) (code : Nat) : List Ev :=
  [Ev.write (writeHeaderBytes code), Ev.write (msg.map Char.toNat ++ [10])]

/-- Host/port extraction of Go `HTTPProxyServer.handleConnect`: split
`req.Host`, defaulting the port to 443 when the split fails. -/
def connectHostPort (reqHost : Str) : Str × Str :=
  match splitHostPort reqHost with
  | some (h, p) => (h, p)
  | none => (reqHost, strL "443")

/-- Go `HTTPProxyServer.handleConnect` as its event sequence, with the
upstream dial as oracle `dial target interface`. -/
def handleConnect (rules : List RouteRule) (reqHost : Str)
    (dial : Str → Str → Except Unit Conn) : List Ev :=
  let (host, portStr) := connectHostPort reqHost
  let port := atoi portStr
  let result := route rules host port
  let target := joinHostPort host portStr
  match dial target result.Interface with
  | .error _ => httpErrorEvents (strL "Bad Gateway") 502 ++ [Ev.closeClient]
  | .ok _ =>
    [Ev.write (bytesOf "HTTP/1.1 200 Connection Established\r\n\r\n"),
     Ev.clearDeadline, Ev.relay, Ev.closeRemote, Ev.closeClient]

/-- Go `strings.Split` with a one-character separator. -/
def goSplit : Str → Char → List Str
  | [], _ => [[]]
  | c :: rest, sep =>
    if c = sep then [] :: goSplit rest sep
    else
      match goSplit rest sep with
      | [] => [[c]]                           -- unreachable: goSplit is nonempty
      | f :: r => (c :: f) :: r

/-- Host/port extraction of Go `HTTPProxyServer.handleHTTP`: split the Host
header on `:`; only a two-field split is used, otherwise the whole value is
the host and the port defaults to 80. -/
def handleHTTPHostPort (host : Str) : Str × Str :=
  match goSplit host ':' with
  | [h, p] => (h, p)
  | _ => (host, strL "80")

/-- Actions of one relay direction (one copy goroutine). -/
inductive RelayAct where
  | copyData        -- io.Copy(dst, src) until EOF
  | closeWriteDst   -- dst.(*net.TCPConn).CloseWrite()
  deriving DecidableEq

/-- One direction of Go `SOCKS5Server.relay`: copy, then half-close the
destination (when it is a TCP connection, which proxy sockets are). -/
def socks5CopyFunc (dstIsTCP : Bool) : List RelayAct :=
  [RelayAct.copyData] ++ (if dstIsTCP then [RelayAct.closeWriteDst] else [])

/-- One direction of Go `HTTPProxyServer.relay`: copy only. -/
def httpRelayCopy : List RelayAct := [RelayAct.copyData]

/-- Write payload of an event, if it is a write. -/
def writePayload : Ev → Option (List Nat)
  | .write bs => some bs
  | _ => none

/-- Predicate for events before the relay starts. -/
def evNotRelay : Ev → Bool
  | .relay => false
  | _ => true

/-- The payloads written to the client before the relay begins. -/
def writesBeforeRelay (evs : List Ev) : List (List Nat) :=
  (evs.takeWhile evNotRelay).filterMap writePayload

/-! ### Concrete inputs used by witnesses -/

/-- A rule with only an IP clause (spec scenario 5). -/
def ruleIPOnly : RouteRule :=
  ⟨strL "r-ip", strL "IP only", ⟨[], [strL "10.0.0.0/8"], [], []⟩, strL "wifi", true⟩

/-- An interface whose first IPv6 address is link-local and whose second is
global. -/
def ifaceV6 : Interface :=
  ⟨strL "en1", [], [strL "fe80::1", strL "2001:db8::5"]⟩

/-- An interface with an IPv4 address and no IPv6. -/
def ifaceNoV6 : Interface := ⟨strL "en0", [strL "192.168.1.5"], []⟩

/-- A global IPv6 target in host:port form. -/
def targetV6 : Str := strL "[2001:db8::1]:443"

/-- The expected bind address for `ifaceV6`: its global IPv6, port 0. -/
def addrV6 : TCPAddr := ⟨[0x20, 0x01, 0x0d, 0xb8, 0, 0, 0, 0, 0, 0, 0, 0, 0, 0, 0, 5], 0⟩

/-- A fixed upstream connection. -/
def connOK : Conn := ⟨strL "192.168.1.5", 50000⟩

/-- An OS dialer that always succeeds. -/
def dialOSOk : Option TCPAddr → Except Unit Conn := fun _ => .ok connOK

/-- A front-end dial oracle that always fails. -/
def failDial : Str → Str → Except Unit Conn := fun _ _ => .error ()

/-- A front-end dial oracle that always yields `connOK`. -/
def okDial : Str → Str → Except Unit Conn := fun _ _ => .ok connOK

/-! ### Helper lemmas -/

/-- Splitting never yields the empty list of fields. -/
theorem goSplit_ne_nil (s : Str) (c : Char) : goSplit s c ≠ [] := by
  cases s with
  | nil => simp [goSplit]
  | cons a rest =>
    unfold goSplit
    by_cases h : a = c
    · simp [h]
    · simp only [h, if_false]
      cases goSplit rest c <;> simp

/-- The number of fields is the separator count plus one (Go
`strings.Split` semantics). -/
theorem goSplit_length (s : Str) (c : Char) :
    (goSplit s c).length = s.count c + 1 := by
  induction s with
  | nil => simp [goSplit]
  | cons a rest ih =>
    unfold goSplit
    by_cases h : a = c
    · simp [h, List.count_cons, ih]
    · have hb : (a == c) = false := beq_eq_false_iff_ne.mpr h
      have := goSplit_ne_nil rest c
      rcases hg : goSplit rest c with _ | ⟨f, r⟩
      · exact absurd hg this
      · have hlen : (goSplit rest c).length = rest.count c + 1 := ih
        rw [hg] at hlen
        simp [h, hg, hb, List.count_cons]
        simp only [List.length_cons] at hlen
        omega

/-- A string without the separator is a single field. -/
theorem goSplit_of_not_mem (s : Str) (c : Char) (h : c ∉ s) :
    goSplit s c = [s] := by
  induction s with
  | nil => rfl
  | cons a rest ih =>
    have ha : a ≠ c := fun e => h (e ▸ List.mem_cons_self a rest)
    have hr : c ∉ rest := fun m => h (List.mem_cons_of_mem a m)
    unfold goSplit
    simp [ha, ih hr]

/-- Splitting around a single separator occurrence yields the two parts. -/
theorem goSplit_two (h p : Str) (c : Char) (hh : c ∉ h) (hp : c ∉ p) :
    goSplit (h ++ c :: p) c = [h, p] := by
  induction h with
  | nil => simp [goSplit, goSplit_of_not_mem p c hp]
  | cons a rest ih =>
    have ha : a ≠ c := fun e => hh (e ▸ List.mem_cons_self a rest)
    have hr : c ∉ rest := fun m => hh (List.mem_cons_of_mem a m)
    unfold goSplit
    simp [ha, ih hr]

/-- A successful selection is the first parseable non-link-local address;
everything before it is unparseable or link-local. -/
theorem selectGlobalV6_eq_some (addrs : List Str) (hll : Bool) (sel : Str) (b : Bool)
    (h : selectGlobalV6 addrs hll = (some sel, b)) :
    ∃ pre post, addrs = pre ++ sel :: post ∧
      (∃ ip, parseIP sel = some ip ∧ isLinkLocalUnicast ip = false) ∧
      ∀ a ∈ pre, parseIP a = none ∨
        ∃ ip, parseIP a = some ip ∧ isLinkLocalUnicast ip = true := by
  induction addrs generalizing hll with
  | nil => simp [selectGlobalV6] at h
  | cons a rest ih =>
    rcases hpa : parseIP a with _ | ip
    · simp only [selectGlobalV6, hpa] at h
      obtain ⟨pre, post, hsplit, hsel, hpre⟩ := ih hll h
      exact ⟨a :: pre, post, by simp [hsplit], hsel, fun x hx => by
        rcases List.mem_cons.mp hx with hxa | hxp
        · exact Or.inl (hxa ▸ hpa)
        · exact hpre x hxp⟩
    · by_cases hl : isLinkLocalUnicast ip = true
      · simp only [selectGlobalV6, hpa, hl, if_true] at h
        obtain ⟨pre, post, hsplit, hsel, hpre⟩ := ih true h
        exact ⟨a :: pre, post, by simp [hsplit], hsel, fun x hx => by
          rcases List.mem_cons.mp hx with hxa | hxp
          · exact Or.inr ⟨ip, hxa ▸ hpa, hl⟩
          · exact hpre x hxp⟩
      · simp [selectGlobalV6, hpa, hl] at h
        obtain ⟨hsa, _⟩ := h
        refine ⟨[], rest, by simp [hsa], ⟨ip, hsa ▸ hpa, ?_⟩, by simp⟩
        exact Bool.not_eq_true (isLinkLocalUnicast ip) ▸ hl

/-- Scanning a nonempty all-link-local list selects nothing and records the
link-local sighting. -/
theorem selectGlobalV6_all_ll (addrs : List Str) (hll : Bool)
    (hne : addrs ≠ [])
    (hall : ∀ a ∈ addrs, ∃ ip, parseIP a = some ip ∧ isLinkLocalUnicast ip = true) :
    selectGlobalV6 addrs hll = (none, true) := by
  induction addrs generalizing hll with
  | nil => exact absurd rfl hne
  | cons a rest ih =>
    obtain ⟨ip, hpa, hl⟩ := hall a (List.mem_cons_self a rest)
    simp only [selectGlobalV6, hpa, hl, if_true]
    rcases rest with _ | ⟨b, rest'⟩
    · rfl
    · exact ih true (by simp) (fun x hx => hall x (List.mem_cons_of_mem a hx))

/-! ### The claims -/

/-- C1: for every rule list and every (host, port), `Route` returns the
decision of some enabled rule of the list — its label, id and name — or the
synthetic default `{cable, default, Default}`; a disabled rule never
supplies the decision. -/
theorem route_decision_enabled_or_default (rules : List RouteRule)
    (host : Str) (port : Int) :
    (∃ r ∈ rules, r.Enabled = true ∧ matchRule r host port = true ∧
      route rules host port = ⟨r.Interface, r.ID, r.Name⟩) ∨
    route rules host port = defaultRouteResult := by
  induction rules with
  | nil => exact Or.inr rfl
  | cons rule rest ih =>
    by_cases h : (rule.Enabled && matchRule rule host port) = true
    · obtain ⟨he, hm⟩ := Bool.and_eq_true_iff.mp h
      exact Or.inl ⟨rule, List.mem_cons_self rule rest, he, hm, by
        simp [route, h]⟩
    · have hr : route (rule :: rest) host port = route rest host port := by
        simp [route, h]
      rcases ih with ⟨r, hmem, he, hm, heq⟩ | hd
      · exact Or.inl ⟨r, List.mem_cons_of_mem rule hmem, he, hm, hr ▸ heq⟩
      · exact Or.inr (hr ▸ hd)

/-- C9 (the claim fails on the code): the SOCKS5 relay half-closes the
destination after each direction's copy completes, but the HTTP front-end's
relay performs no half-close at all, so the two relays do not behave
identically. -/
theorem relay_halfclose_divergence :
    socks5CopyFunc true = [RelayAct.copyData, RelayAct.closeWriteDst] ∧
    httpRelayCopy = [RelayAct.copyData] ∧
    RelayAct.closeWriteDst ∉ httpRelayCopy := by decide

/-- C10: the plain-HTTP front-end splits the Host header on `:` only when
the split yields exactly two fields; with zero or more than one colon the
whole Host value is the host and the port defaults to 80. -/
theorem handleHTTP_hostport_split (host : Str) :
    (host.count ':' ≠ 1 → handleHTTPHostPort host = (host, strL "80")) ∧
    (∀ h p, host = h ++ ':' :: p → ':' ∉ h → ':' ∉ p →
      handleHTTPHostPort host = (h, p)) := by
  constructor
  · intro hc
    have hlen : (goSplit host ':').length ≠ 2 := by
      rw [goSplit_length]; omega
    unfold handleHTTPHostPort
    rcases hg : goSplit host ':' with _ | ⟨a, _ | ⟨b, _ | ⟨c, r⟩⟩⟩ <;>
      simp_all [hg]
  · intro h p hhp hh hp
    unfold handleHTTPHostPort
    rw [hhp, goSplit_two h p ':' hh hp]

/-- C10 witness: a bracketed IPv6 Host value (three colons) is kept verbatim
with port 80. -/
theorem handleHTTP_hostport_split_witness :
    handleHTTPHostPort (strL "[::1]:8080") = (strL "[::1]:8080", strL "80") :=
  (handleHTTP_hostport_split (strL "[::1]:8080")).1 (by decide)

/-- C3 counterexample: for the wildcard pattern `*.a*b` the matcher accepts
the host `x.azzb`, which neither equals `a*b` nor ends with `.a*b` — the
glob fall-through of `matchDomain` accepts more hosts than the claimed
iff allows. -/
theorem matchDomain_wildcard_iff_counterexample :
    matchDomain (strL "*.a*b") (strL "x.azzb") = true ∧
    toLower (strL "x.azzb") ≠ toLower (strL "a*b") ∧
    ('.' :: toLower (strL "a*b")).isSuffixOf (toLower (strL "x.azzb")) = false := by
  decide

/-- C7 counterexample: on a failed CONNECT dial the HTTP front-end does not
write exactly `HTTP/1.1 502 Bad Gateway\r\n\r\n` — `http.Error` appends the
plain-text body `Bad Gateway\n` after the status line. -/
theorem http_error_exact_bytes_counterexample :
    (handleConnect [] (strL "example.com:443") failDial).filterMap writePayload ≠
      [bytesOf "HTTP/1.1 502 Bad Gateway\r\n\r\n"] := by decide

/-- C3 (amended): for every pattern `*.d` and every host `h`, the matcher
accepts `h` iff, after lowercasing both sides, `h` ends with `.d`, or `h`
equals `d`, or `h` matches `*.d` as a shell glob — the glob disjunct is the
fall-through the original iff omitted and is what the counterexample
exhibits. -/
theorem matchDomain_wildcard_characterization (d h : Str) :
    matchDomain ('*' :: '.' :: d) h =
      (('.' :: toLower d).isSuffixOf (toLower h) ||
       (toLower h == toLower d) ||
       filepathMatch ('*' :: '.' :: toLower d) (toLower h)) := by
  have h1 : toLowerChar '*' = '*' := by decide
  have h2 : toLowerChar '.' = '.' := by decide
  have hpat : toLower ('*' :: '.' :: d) = '*' :: '.' :: toLower d := by
    simp [toLower, h1, h2]
  have hpre : (strL "*.").isPrefixOf ('*' :: '.' :: toLower d) = true := by
    simp [strL, List.isPrefixOf]
  by_cases hc1 : (('*' :: '.' :: toLower d : Str) == toLower h) = true
  · have hlh : toLower h = '*' :: '.' :: toLower d := (eq_of_beq hc1).symm
    have hsuf : ('.' :: toLower d).isSuffixOf (toLower h) = true := by
      rw [hlh]
      exact List.isSuffixOf_iff_suffix.mpr ⟨['*'], rfl⟩
    simp [matchDomain, hpat, hc1, hsuf]
  · simp only [matchDomain, hpat, hpre, hc1, if_true, if_false,
      Bool.false_eq_true, List.drop_succ_cons, List.drop_zero, List.drop_one,
      List.tail_cons]
    by_cases hs : ('.' :: toLower d).isSuffixOf (toLower h) = true <;>
      by_cases hr : ((toLower h : Str) == toLower d) = true <;>
        simp [hs, hr]

/-- C4: the IP clause of `matchRule` for a rule with a non-empty IP list —
a non-IP host fails the rule when there is no domain clause; a non-IP host
already accepted by the domain clause skips the IP clause, leaving only the
port clause; an IP-literal host must match some entry (CIDR by containment
via `ipNetContains`, bare IP by `ipEqual`, both inside
`ipEntryMatches`). -/
theorem matchRule_ip_clause (rule : RouteRule) (host : Str) (port : Int)
    (hips : rule.RMatch.IPs ≠ []) :
    (parseIP host = none ∧ rule.RMatch.Domains = [] →
      matchRule rule host port = false) ∧
    (parseIP host = none →
      rule.RMatch.Domains.any (fun pattern => matchDomain pattern host) = true →
      matchRule rule host port =
        (if rule.RMatch.Ports.isEmpty then true
         else rule.RMatch.Ports.any (fun p => p == port))) ∧
    (∀ ip, parseIP host = some ip →
      matchRule rule host port =
        ((if rule.RMatch.Domains.isEmpty then true
          else rule.RMatch.Domains.any (fun pattern => matchDomain pattern host)) &&
         rule.RMatch.IPs.any (fun cidr => ipEntryMatches cidr ip) &&
         (if rule.RMatch.Ports.isEmpty then true
          else rule.RMatch.Ports.any (fun p => p == port)))) := by
  have hie : rule.RMatch.IPs.isEmpty = false := by
    simpa [List.isEmpty_iff] using hips
  refine ⟨?_, ?_, ?_⟩
  · rintro ⟨hp, hd⟩
    simp [matchRule, hie, hp, hd]
  · intro hp hany
    have hdne : rule.RMatch.Domains ≠ [] := by
      intro he
      rw [he] at hany
      simp at hany
    have hde : rule.RMatch.Domains.isEmpty = false := by
      simpa [List.isEmpty_iff] using hdne
    simp [matchRule, hie, hp, hde, hany]
  · intro ip hp
    simp [matchRule, hie, hp]

/-- C4 witness: a rule with only the IP clause `10.0.0.0/8` cannot match
the domain-name host `example.com` (spec scenario 5). -/
theorem matchRule_ip_clause_witness :
    parseIP (strL "example.com") = none ∧
    matchRule ruleIPOnly (strL "example.com") 443 = false :=
  ⟨rfl, (matchRule_ip_clause ruleIPOnly (strL "example.com") 443
    (by decide)).1 ⟨rfl, rfl⟩⟩

/-- C5: for an IPv6-literal target, `GetLocalAddrForTarget` fails with the
no-IPv6 error when the interface has no IPv6 address, fails with the
only-link-local error when every IPv6 address is link-local, and on success
returns port 0 and the first IPv6 address that parses as non-link-local —
in particular never a link-local bind address. -/
theorem getLocalAddrForTarget_ipv6_spec (iface : Interface) (targetAddr : Str)
    (h6 : isIPv6TargetB targetAddr = true) :
    (iface.IPv6Addrs = [] →
      getLocalAddrForTarget iface targetAddr = .error .noIPv6) ∧
    (iface.IPv6Addrs ≠ [] →
      (∀ a ∈ iface.IPv6Addrs, ∃ ip, parseIP a = some ip ∧
        isLinkLocalUnicast ip = true) →
      getLocalAddrForTarget iface targetAddr = .error .onlyLinkLocal) ∧
    (∀ addr, getLocalAddrForTarget iface targetAddr = .ok addr →
      isLinkLocalUnicast addr.IP = false ∧ addr.Port = 0 ∧
      ∃ pre s post, iface.IPv6Addrs = pre ++ s :: post ∧
        parseIP s = some addr.IP ∧
        ∀ a ∈ pre, parseIP a = none ∨
          ∃ ip, parseIP a = some ip ∧ isLinkLocalUnicast ip = true) := by
  refine ⟨?_, ?_, ?_⟩
  · intro he
    simp [getLocalAddrForTarget, h6, he]
  · intro hne hall
    have hie : iface.IPv6Addrs.isEmpty = false := by
      simpa [List.isEmpty_iff] using hne
    have hsel := selectGlobalV6_all_ll iface.IPv6Addrs false hne hall
    simp [getLocalAddrForTarget, h6, hie, hsel]
  · intro addr hok
    cases hie : iface.IPv6Addrs.isEmpty with
    | true => simp [getLocalAddrForTarget, h6, hie] at hok
    | false =>
      rcases hsel : selectGlobalV6 iface.IPv6Addrs false with ⟨osel, b⟩
      rcases osel with _ | sel
      · cases b <;> simp [getLocalAddrForTarget, h6, hie, hsel] at hok
      · rcases hps : parseIP sel with _ | ip
        · simp [getLocalAddrForTarget, h6, hie, hsel, hps] at hok
        · simp [getLocalAddrForTarget, h6, hie, hsel, hps] at hok
          obtain ⟨pre, post, hsplit, ⟨ip', hps', hll'⟩, hpre⟩ :=
            selectGlobalV6_eq_some _ _ _ _ hsel
          have hip : ip' = ip := by
            rw [hps] at hps'
            exact (Option.some.inj hps').symm
          subst hip
          rw [← hok]
          exact ⟨hll', rfl, pre, sel, post, hsplit, hps', hpre⟩

/-- C5 witness: for the global IPv6 target and an interface whose IPv6 list
is a link-local address followed by a global one, the returned bind address
is the global one. -/
theorem getLocalAddrForTarget_ipv6_spec_witness :
    isLinkLocalUnicast addrV6.IP = false ∧ addrV6.Port = 0 ∧
    ∃ pre s post, ifaceV6.IPv6Addrs = pre ++ s :: post ∧
      parseIP s = some addrV6.IP ∧
      ∀ a ∈ pre, parseIP a = none ∨
        ∃ ip, parseIP a = some ip ∧ isLinkLocalUnicast ip = true :=
  (getLocalAddrForTarget_ipv6_spec ifaceV6 targetV6 (by decide)).2.2 addrV6
    (by decide)

/-- C6: when the registry lookup fails with any interface error, the dialer
does not propagate it: it logs the fallback warning and dials with no local
bind address (the OS default route), so the outcome is exactly that of the
unbound dial. -/
theorem dialContext_interface_error_fallback (iface : Interface) (address : Str)
    (dialOS : Option TCPAddr → Except Unit Conn) (e : IfaceErr)
    (h : getLocalAddrForTarget iface address = .error e) :
    dialContext iface address dialOS =
      ((match dialOS none with
        | .error _ => .error DialErr.failedToDial
        | .ok c => .ok c),
       [DLog.warnFallback, DLog.debugDialing]) := by
  cases hd : dialOS none <;> simp [dialContext, h, hd]

/-- C6 witness: an interface with no IPv6 and an IPv6 target — the lookup
fails, and the dial still succeeds through the OS default route with the
warning logged. -/
theorem dialContext_interface_error_fallback_witness :
    dialContext ifaceNoV6 targetV6 dialOSOk =
      (.ok connOK, [DLog.warnFallback, DLog.debugDialing]) :=
  dialContext_interface_error_fallback ifaceNoV6 targetV6 dialOSOk
    IfaceErr.noIPv6 (by decide)

/-- C7 (amended): on a failed upstream dial the SOCKS5 front-end sends the
single reply `05 04 00 01 0.0.0.0 0` and closes, and the HTTP front-end
writes `HTTP/1.1 502 Bad Gateway\r\n\r\n` followed by the plain-text body
`Bad Gateway\n` (appended by `http.Error`) and closes. -/
theorem dial_failure_replies (rules : List RouteRule) (targetAddr reqHost : Str)
    (port : Int) (dial : Str → Str → Except Unit Conn)
    (hfail : ∀ t i, dial t i = .error ()) :
    socks5HandleTail rules targetAddr port dial =
      [Ev.clearDeadline, Ev.write [5, 4, 0, 1, 0, 0, 0, 0, 0, 0],
       Ev.closeClient] ∧
    handleConnect rules reqHost dial =
      [Ev.write (bytesOf "HTTP/1.1 502 Bad Gateway\r\n\r\n"),
       Ev.write (bytesOf "Bad Gateway\n"), Ev.closeClient] := by
  constructor
  · simp only [socks5HandleTail, hfail]
    decide
  · simp only [handleConnect, hfail]
    decide

/-- C7 witness: the failure replies at a concrete target with the
always-failing dial oracle. -/
theorem dial_failure_replies_witness :
    socks5HandleTail [] (strL "example.com") 443 failDial =
      [Ev.clearDeadline, Ev.write [5, 4, 0, 1, 0, 0, 0, 0, 0, 0],
       Ev.closeClient] ∧
    handleConnect [] (strL "example.com:443") failDial =
      [Ev.write (bytesOf "HTTP/1.1 502 Bad Gateway\r\n\r\n"),
       Ev.write (bytesOf "Bad Gateway\n"), Ev.closeClient] :=
  dial_failure_replies [] (strL "example.com") (strL "example.com:443") 443
    failDial (fun _ _ => rfl)

/-- C8: on a successful CONNECT dial, the only bytes written before the
relay begins are the 39-byte literal `HTTP/1.1 200 Connection
Established\r\n\r\n`, and the deadline is cleared before the relay. -/
theorem handleConnect_success_reply (rules : List RouteRule) (reqHost : Str)
    (dial : Str → Str → Except Unit Conn) (conn : Conn)
    (hok : ∀ t i, dial t i = .ok conn) :
    writesBeforeRelay (handleConnect rules reqHost dial) =
      [bytesOf "HTTP/1.1 200 Connection Established\r\n\r\n"] ∧
    (bytesOf "HTTP/1.1 200 Connection Established\r\n\r\n").length = 39 ∧
    Ev.clearDeadline ∈ (handleConnect rules reqHost dial).takeWhile evNotRelay ∧
    Ev.relay ∈ handleConnect rules reqHost dial := by
  have hev : handleConnect rules reqHost dial =
      [Ev.write (bytesOf "HTTP/1.1 200 Connection Established\r\n\r\n"),
       Ev.clearDeadline, Ev.relay, Ev.closeRemote, Ev.closeClient] := by
    simp only [handleConnect, hok]
  refine ⟨?_, by decide, ?_, ?_⟩
  · rw [hev]; decide
  · rw [hev]; decide
  · rw [hev]; decide

/-- C8 witness: the success events at a concrete CONNECT target with the
always-succeeding dial oracle. -/
theorem handleConnect_success_reply_witness :
    writesBeforeRelay (handleConnect [] (strL "example.com:443") okDial) =
      [bytesOf "HTTP/1.1 200 Connection Established\r\n\r\n"] ∧
    (bytesOf "HTTP/1.1 200 Connection Established\r\n\r\n").length = 39 ∧
    Ev.clearDeadline ∈
      (handleConnect [] (strL "example.com:443") okDial).takeWhile evNotRelay ∧
    Ev.relay ∈ handleConnect [] (strL "example.com:443") okDial :=
  handleConnect_success_reply [] (strL "example.com:443") okDial connOK
    (fun _ _ => rfl)

end SplitDial
